import Mathlib

/-!
Verification development for the LLM orchestration layer of the
hello-faceless-content repository: providers (claude.py, openai.py,
bedrock.py, base.py), the manager (manager.py) and the response cache
(cache.py) are shallowly embedded below; the numbered theorems at the end
settle the frozen claims about this subsystem.

Conventions of the embedding:
- Python strings are Lean `String`s; character-level operations work on
  `String.data`.
- Machine time is modelled as an integer number of seconds; a
  `timedelta(hours = H)` is `H * 3600` seconds.
- Python floats in the price tables are modelled as exact rationals `ℚ`
  (every number appearing in the tables and in the claims is exactly
  representable, and the claimed arithmetic identities hold for the float
  computation as well).
- `json.loads` / `json.dumps` are modelled by an executable parser and
  serializer over an inductive `Json` type restricted to the fragment the
  claims exercise: null, booleans, integer numerals, strings with the
  common escapes, arrays and objects. Floating-point numerals and
  `\u`-escapes are outside the model.
- The MD5 digest applied by `LLMCache._generate_cache_key` is a fixed
  deterministic function of the canonical serialization string; every
  claim about cache keys only asserts equalities of keys, all of which are
  preserved when the canonical serialization string itself is taken as the
  key. The embedding therefore uses the canonical string as the key.
-/

/-- JSON values, as produced by the model of `json.loads`. An object is a
field list in textual order. -/
inductive Json where
  | null : Json
  | bool (b : Bool) : Json
  | num (n : Int) : Json
  | str (s : String) : Json
  | arr (xs : List Json) : Json
  | obj (fields : List (String × Json)) : Json

/-- The four JSON whitespace characters (the set `json.loads` skips). -/
def jsonWs (c : Char) : Bool :=
  c = ' ' || c = '\t' || c = '\n' || c = '\r'

/-- Drop leading JSON whitespace. -/
def skipWs (s : List Char) : List Char :=
  s.dropWhile jsonWs

/-- Scan the body of a JSON string literal (the opening quote already
consumed), handling the common escapes; returns the decoded string and the
remaining input. Raw control characters are rejected, as `json.loads`
does. -/
def scanStringBody : List Char → List Char → Option (String × List Char)
  | _, [] => none
  | acc, c :: rest =>
    if c = '"' then some (String.mk acc.reverse, rest)
    else if c = '\\' then
      match rest with
      | [] => none
      | e :: rest2 =>
        if e = '"' then scanStringBody ('"' :: acc) rest2
        else if e = '\\' then scanStringBody ('\\' :: acc) rest2
        else if e = '/' then scanStringBody ('/' :: acc) rest2
        else if e = 'n' then scanStringBody ('\n' :: acc) rest2
        else if e = 't' then scanStringBody ('\t' :: acc) rest2
        else if e = 'r' then scanStringBody ('\r' :: acc) rest2
        else if e = 'b' then scanStringBody ('\x08' :: acc) rest2
        else if e = 'f' then scanStringBody ('\x0c' :: acc) rest2
        else none
    else if c.toNat < 32 then none
    else scanStringBody (c :: acc) rest

/-- Numeric value of a list of decimal digit characters. -/
def digitsToNat (ds : List Char) : Nat :=
  ds.foldl (fun acc c => acc * 10 + (c.toNat - 48)) 0

/-- Scan an integer JSON numeral (optional minus sign, no leading zeros,
and no fraction or exponent: floating-point numerals are outside the
modelled fragment). -/
def scanNumber (s : List Char) : Option (Int × List Char) :=
  let core : List Char → Option (Nat × List Char) := fun t =>
    let ds := t.takeWhile Char.isDigit
    let rest := t.dropWhile Char.isDigit
    match ds, rest with
    | [], _ => none
    | _ :: _ :: _, _ =>
      if ds.head? = some '0' then none
      else if rest.head? = some '.' ∨ rest.head? = some 'e' ∨ rest.head? = some 'E'
        then none
      else some (digitsToNat ds, rest)
    | [_], _ =>
      if rest.head? = some '.' ∨ rest.head? = some 'e' ∨ rest.head? = some 'E'
        then none
      else some (digitsToNat ds, rest)
  match s with
  | '-' :: t => (core t).map (fun p => (-(p.1 : Int), p.2))
  | t => (core t).map (fun p => ((p.1 : Int), p.2))

mutual

/-- Fuel-indexed recursive-descent model of `json.loads`: parse one JSON
value and return it with the remaining input. -/
def scanValue : Nat → List Char → Option (Json × List Char)
  | 0, _ => none
  | fuel + 1, s =>
    match skipWs s with
    | [] => none
    | c :: rest =>
      if c = '\x7b' then
        match skipWs rest with
        | [] => none
        | d :: rest2 =>
          if d = '\x7d' then some (Json.obj [], rest2)
          else scanObjFields fuel (d :: rest2)
      else if c = '[' then
        match skipWs rest with
        | [] => none
        | d :: rest2 =>
          if d = ']' then some (Json.arr [], rest2)
          else scanArrItems fuel (d :: rest2)
      else if c = '"' then
        (scanStringBody [] rest).map (fun p => (Json.str p.1, p.2))
      else
        match c :: rest with
        | 't' :: 'r' :: 'u' :: 'e' :: r => some (Json.bool true, r)
        | 'f' :: 'a' :: 'l' :: 's' :: 'e' :: r => some (Json.bool false, r)
        | 'n' :: 'u' :: 'l' :: 'l' :: r => some (Json.null, r)
        | t => (scanNumber t).map (fun p => (Json.num p.1, p.2))

/-- Parse the nonempty item list of a JSON array up to the closing
bracket. -/
def scanArrItems : Nat → List Char → Option (Json × List Char)
  | 0, _ => none
  | fuel + 1, s =>
    (scanValue fuel s).bind (fun p =>
      match skipWs p.2 with
      | [] => none
      | c :: r2 =>
        if c = ',' then
          (scanArrItems fuel r2).bind (fun q =>
            match q.1 with
            | Json.arr vs => some (Json.arr (p.1 :: vs), q.2)
            | _ => none)
        else if c = ']' then some (Json.arr [p.1], r2)
        else none)

/-- Parse the nonempty field list of a JSON object up to the closing
brace. -/
def scanObjFields : Nat → List Char → Option (Json × List Char)
  | 0, _ => none
  | fuel + 1, s =>
    match skipWs s with
    | '"' :: r =>
      (scanStringBody [] r).bind (fun kp =>
        match skipWs kp.2 with
        | ':' :: r2 =>
          (scanValue fuel r2).bind (fun vp =>
            match skipWs vp.2 with
            | [] => none
            | c :: r4 =>
              if c = ',' then
                (scanObjFields fuel r4).bind (fun q =>
                  match q.1 with
                  | Json.obj fs => some (Json.obj ((kp.1, vp.1) :: fs), q.2)
                  | _ => none)
              else if c = '\x7d' then some (Json.obj [(kp.1, vp.1)], r4)
              else none)
        | _ => none)
    | _ => none

end

/-- Model of a strict full-string `json.loads` on a character list: the
parse must consume the whole input up to trailing whitespace. -/
def jsonParseChars (l : List Char) : Option Json :=
  match scanValue (l.length + 1) l with
  | some (v, rest) => if skipWs rest = [] then some v else none
  | none => none

/-- Model of strict `json.loads` on a string. -/
def jsonParse (s : String) : Option Json :=
  jsonParseChars s.data

/-- Escape one character for JSON string output. -/
def jstrEsc (c : Char) : List Char :=
  if c = '"' then ['\\', '"']
  else if c = '\\' then ['\\', '\\']
  else if c = '\n' then ['\\', 'n']
  else if c = '\t' then ['\\', 't']
  else if c = '\r' then ['\\', 'r']
  else [c]

/-- Serialize a string as a JSON string literal. -/
def jstr (s : String) : String :=
  "\"" ++ String.mk (s.data.foldr (fun c acc => jstrEsc c ++ acc) []) ++ "\""

mutual

/-- Model of `json.dumps` with the default separators; object fields are
emitted in list order (the cache code sorts the one object it serializes
before dumping, see `cacheKeyString`). -/
def jdump : Json → String
  | Json.null => "null"
  | Json.bool true => "true"
  | Json.bool false => "false"
  | Json.num n => toString n
  | Json.str s => jstr s
  | Json.arr xs => "[" ++ jdumpItems xs ++ "]"
  | Json.obj fs => "\x7b" ++ jdumpFields fs ++ "\x7d"

/-- Serialize array items joined by ", ". -/
def jdumpItems : List Json → String
  | [] => ""
  | [x] => jdump x
  | x :: y :: rest => jdump x ++ ", " ++ jdumpItems (y :: rest)

/-- Serialize object fields joined by ", ". -/
def jdumpFields : List (String × Json) → String
  | [] => ""
  | [kv] => jstr kv.1 ++ ": " ++ jdump kv.2
  | kv :: f :: rest => jstr kv.1 ++ ": " ++ jdump kv.2 ++ ", " ++ jdumpFields (f :: rest)

end

/-- Index of the first occurrence of `c`, if any. -/
def firstIdx (c : Char) (s : List Char) : Option Nat :=
  s.findIdx? (· = c)

/-- Index of the last occurrence of `c`, if any. -/
def lastIdx (c : Char) (s : List Char) : Option Nat :=
  (s.reverse.findIdx? (· = c)).map (fun k => s.length - 1 - k)

/-- Model of `re.search(r'O.*C', text, re.DOTALL)` for single characters
`O`, `C` with a greedy gap: the leftmost match runs from the first
occurrence of the opener that still has a closer after it — equivalently
the first opener, provided the last closer lies strictly beyond it — to
the last occurrence of the closer. Returns the matched slice. -/
def spanSlice (o c : Char) (s : List Char) : Option (List Char) :=
  match firstIdx o s, lastIdx c s with
  | some i, some j => if i < j then some ((s.drop i).take (j - i + 1)) else none
  | _, _ => none

/-- Embedding of `LLMManager.generate_with_json_parsing`'s parsing stage
(manager.py lines 226-253): strict parse of the whole response; on
failure, the first-`{`-to-last-`}` substring; on failure, the
first-`[`-to-last-`]` substring; otherwise the raised error message
carrying the first 200 characters of the response. -/
def salvageParse (response : String) : Except String Json :=
  match jsonParse response with
  | some v => Except.ok v
  | none =>
    match (spanSlice '\x7b' '\x7d' response.data).bind jsonParseChars with
    | some v => Except.ok v
    | none =>
      match (spanSlice '[' ']' response.data).bind jsonParseChars with
      | some v => Except.ok v
      | none =>
        Except.error ("Failed to parse JSON from LLM response: " ++ response.take 200)

/-- Total lexicographic-by-code-point comparison of character lists,
mirroring how Python compares the `str` keys that
`json.dumps(..., sort_keys=True)` sorts. -/
def keyLe : List Char → List Char → Bool
  | [], _ => true
  | _ :: _, [] => false
  | a :: as, b :: bs =>
    if a.toNat < b.toNat then true
    else if b.toNat < a.toNat then false
    else keyLe as bs

/-- Key comparison lifted to object fields. -/
def entryLe (a b : String × Json) : Bool :=
  keyLe a.1.data b.1.data

/-- Sort object fields by key, as `json.dumps(..., sort_keys=True)`
does to the object it serializes. -/
def sortEntries (l : List (String × Json)) : List (String × Json) :=
  l.mergeSort entryLe

/-- Embedding of `LLMCache._generate_cache_key` (cache.py lines 28-49):
canonical serialization of the object holding `prompt`, `model` and the
non-null extra keyword parameters, with keys sorted. The MD5 digest the
source applies on top is a deterministic function of this string, so all
claimed key equalities are stated on the canonical string itself. -/
def cacheKeyString (prompt model : String) (params : List (String × Option Json)) : String :=
  jdump (Json.obj (sortEntries
    (("prompt", Json.str prompt) :: ("model", Json.str model) ::
      params.filterMap (fun kv => kv.2.map (fun v => (kv.1, v))))))

/-- One stored cache entry: the response text and the write timestamp
(seconds; `cached_at` in the entry file). -/
structure CacheEntry where
  response : String
  cachedAt : Int
  deriving DecidableEq

/-- The cache directory: an association list from cache key (file name) to
entry, with at most one entry per key. -/
abbrev CacheStore : Type := List (String × CacheEntry)

/-- Embedding of `LLMCache.get` (cache.py lines 55-93): compute the key,
return the stored response if the entry exists and its age is within
`maxAgeHours`; delete the entry and miss when it is older. Returns the
result together with the possibly-updated store. -/
def cacheGet (store : CacheStore) (now : Int) (prompt model : String)
    (params : List (String × Option Json)) (maxAgeHours : Int) :
    Option String × CacheStore :=
  let key := cacheKeyString prompt model params
  match List.lookup key store with
  | none => (none, store)
  | some e =>
    if now - e.cachedAt > maxAgeHours * 3600 then
      (none, store.filter (fun kv => !(kv.1 == key)))
    else
      (some e.response, store)

/-- Embedding of `LLMCache.set` (cache.py lines 95-123): write the entry
under the computed key, replacing any existing entry for that key. -/
def cacheSet (store : CacheStore) (now : Int) (prompt model response : String)
    (params : List (String × Option Json)) : CacheStore :=
  let key := cacheKeyString prompt model params
  (key, ⟨response, now⟩) :: store.filter (fun kv => !(kv.1 == key))

/-- File contents of the cache entry file over the course of one
`LLMCache.set` call, in order: the prior contents, the contents right
after `open(cache_path, "w")` truncates the file, and the contents after
`json.dump` has written the serialized entry. `none` models a missing
file, `some s` a file holding `s`. -/
def setWriteStates (old : Option String) (new : String) : List (Option String) :=
  [old, some "", some new]

/-- Whitespace characters stripped by Python `str.strip()` (the ASCII
ones; exotic unicode spaces are outside the model). -/
def isPyWs (c : Char) : Bool :=
  c = ' ' || c = '\t' || c = '\n' || c = '\r' || c = '\x0b' || c = '\x0c'

/-- Model of Python `str.strip()`: drop whitespace from both ends. -/
def pyStrip (s : String) : String :=
  String.mk (((s.data.dropWhile isPyWs).reverse.dropWhile isPyWs).reverse)

/-- Embedding of `BaseLLMProvider.validate_response` (base.py lines
103-121): reject an empty or whitespace-only response, then reject a
response whose stripped length is below 10; accept otherwise. -/
def validate_response (response : String) : Bool :=
  if response = "" ∨ pyStrip response = "" then false
  else if (pyStrip response).length < 10 then false
  else true

/-- Outcome of one raw backend call inside a provider's `generate`:
generated text, a rate-limit error (`RateLimitError` /
`ThrottlingException`), or any other backend error (`APIError` and the
generic handler behave identically: log and re-raise). -/
inductive BackendResult where
  | ok (text : String) : BackendResult
  | rateLimited (msg : String) : BackendResult
  | apiError (msg : String) : BackendResult
  deriving DecidableEq

/-- Error escalated out of a provider's `generate`. -/
inductive ProvError where
  | rateLimited (msg : String) : ProvError
  | backend (msg : String) : ProvError
  | invalidResponse : ProvError
  deriving DecidableEq

/-- Observable trace of one provider `generate` call: how many times the
backend was invoked, the sleep durations (seconds, in order) performed
between attempts, and the final outcome. -/
structure GenTrace where
  calls : Nat
  sleeps : List Nat
  result : Except ProvError String

/-- The retry loop shared by `ClaudeProvider.generate` (claude.py lines
74-152) and `OpenAIProvider.generate` (openai.py lines 75-150): `attempt`
is the current 0-based attempt index, `remaining` the number of loop
iterations left (`max_retries - attempt`). A backend success is validated
and returned, or turned into an immediately escalated invalid-response
error; a rate limit sleeps `retry_delay * 2 ^ attempt` seconds and retries
unless this was the last attempt; any other backend error escalates
immediately. -/
def genAux (backend : Nat → BackendResult) (retryDelay : Nat) :
    Nat → Nat → GenTrace
  | _, 0 => ⟨0, [], Except.error (ProvError.rateLimited "")⟩
  | attempt, r + 1 =>
    match backend attempt with
    | BackendResult.ok t =>
      if validate_response t then ⟨1, [], Except.ok t⟩
      else ⟨1, [], Except.error ProvError.invalidResponse⟩
    | BackendResult.rateLimited m =>
      if r = 0 then ⟨1, [], Except.error (ProvError.rateLimited m)⟩
      else
        let rest := genAux backend retryDelay (attempt + 1) r
        ⟨rest.calls + 1, retryDelay * 2 ^ attempt :: rest.sleeps, rest.result⟩
    | BackendResult.apiError m => ⟨1, [], Except.error (ProvError.backend m)⟩

/-- A provider `generate` call with the source's constants
`max_retries = 3`, `retry_delay = 1`, driven by the per-attempt backend
behaviour. -/
def provGenerate (backend : Nat → BackendResult) : GenTrace :=
  genAux backend 1 0 3

/-- `ClaudeProvider.PRICING` (claude.py lines 22-26), per million tokens. -/
def claudePRICING : List (String × ℚ × ℚ) :=
  [("claude-3-5-haiku-20241022", (1/4, 5/4)),
   ("claude-3-5-sonnet-20241022", (3, 15)),
   ("claude-3-opus-20240229", (15, 75))]

/-- `OpenAIProvider.PRICING` (openai.py lines 22-27), per million tokens. -/
def openaiPRICING : List (String × ℚ × ℚ) :=
  [("gpt-4o", (5/2, 10)),
   ("gpt-4o-mini", (3/20, 3/5)),
   ("gpt-4-turbo", (10, 30)),
   ("gpt-3.5-turbo", (1/2, 3/2))]

/-- `BedrockProvider.PRICING` (bedrock.py lines 29-33), per million
tokens. -/
def bedrockPRICING : List (String × ℚ × ℚ) :=
  [("anthropic.claude-3-5-sonnet-20241022-v2:0", (3, 15)),
   ("anthropic.claude-3-5-haiku-20241022-v1:0", (1/4, 5/4)),
   ("anthropic.claude-3-opus-20240229-v1:0", (15, 75))]

/-- The `get_cost` method shared verbatim by all three providers: zero for
a model absent from the price table, otherwise
`tokens / 1,000,000 * price` summed over input and output. -/
def get_cost (pricing : List (String × ℚ × ℚ)) (model : String)
    (inputTokens outputTokens : Nat) : ℚ :=
  match List.lookup model pricing with
  | none => 0
  | some p =>
    (inputTokens : ℚ) / 1000000 * p.1 + (outputTokens : ℚ) / 1000000 * p.2

/-- The three provider classes the manager constructs, in the fixed
priority order of `LLMManager.__init__`. -/
inductive PKind where
  | claude : PKind
  | openai : PKind
  | bedrock : PKind
  deriving DecidableEq

/-- `provider_name` as computed in `BaseLLMProvider.__init__` (class name
minus "Provider", lowercased). -/
def kindName : PKind → String
  | PKind.claude => "claude"
  | PKind.openai => "openai"
  | PKind.bedrock => "bedrock"

/-- `ClaudeProvider.get_cheap_model` (claude.py line 187). -/
def claudeCheapModel : String := "claude-3-5-haiku-20241022"

/-- `ClaudeProvider.get_quality_model` (claude.py line 192). -/
def claudeQualityModel : String := "claude-3-5-sonnet-20241022"

/-- `OpenAIProvider.get_cheap_model` (openai.py line 185). -/
def openaiCheapModel : String := "gpt-4o-mini"

/-- `OpenAIProvider.get_quality_model` (openai.py line 190). -/
def openaiQualityModel : String := "gpt-4o"

/-- The `hasattr(provider, "get_cheap_model")` probe followed by the call:
`ClaudeProvider` and `OpenAIProvider` define the classmethod;
`BedrockProvider` (bedrock.py lines 20-216) defines no `get_cheap_model`,
so the probe fails and no model is produced. -/
def getCheapModel : PKind → Option String
  | PKind.claude => some claudeCheapModel
  | PKind.openai => some openaiCheapModel
  | PKind.bedrock => none

/-- The cheapest model actually listed in `BedrockProvider.PRICING`
(lowest input and output price per million tokens). -/
def bedrockCheapestListed : String := "anthropic.claude-3-5-haiku-20241022-v1:0"

/-- One provider instance as routing sees it: which class it is, whether
`is_available()` holds, and its current `model` field. -/
structure PState where
  kind : PKind
  available : Bool
  model : String
  deriving DecidableEq

/-- The manager's provider dictionary state: availability and current
model of each of the three constructed providers. -/
structure MgrState where
  claudeAvail : Bool
  claudeModel : String
  openaiAvail : Bool
  openaiModel : String
  bedrockAvail : Bool
  bedrockModel : String
  deriving DecidableEq

/-- `self.providers` in insertion order (claude, openai, bedrock). -/
def provList (m : MgrState) : List PState :=
  [⟨PKind.claude, m.claudeAvail, m.claudeModel⟩,
   ⟨PKind.openai, m.openaiAvail, m.openaiModel⟩,
   ⟨PKind.bedrock, m.bedrockAvail, m.bedrockModel⟩]

/-- `self.available_providers`: the available providers in insertion
order. -/
def availList (m : MgrState) : List PState :=
  (provList m).filter (fun p => p.available)

/-- Apply the cheap-model forcing of the `simple` / `refinement` routing
branches: set the model if the provider exposes `get_cheap_model`, leave
it unchanged otherwise. -/
def applyCheap (p : PState) : PState :=
  match getCheapModel p.kind with
  | some m => { p with model := m }
  | none => p

/-- Embedding of `LLMManager.get_provider` (manager.py lines 46-103):
explicit provider override first (used unmodified when available), then
task-type routing — `simple` / `refinement` pick the first available
provider and force its cheap model when the class exposes one;
`script_generation` prefers claude at its quality model, then openai at
its quality model; everything else falls through to the first available
provider unmodified. -/
def get_provider (m : MgrState) (providerName : Option String)
    (taskType : String) : Option PState :=
  let avail := availList m
  let byTask : Option PState :=
    if taskType = "simple" then (avail.head?).map applyCheap
    else if taskType = "script_generation" then
      if m.claudeAvail then some ⟨PKind.claude, true, claudeQualityModel⟩
      else if m.openaiAvail then some ⟨PKind.openai, true, openaiQualityModel⟩
      else avail.head?
    else if taskType = "refinement" then (avail.head?).map applyCheap
    else avail.head?
  match providerName with
  | some n =>
    match avail.find? (fun p => kindName p.kind == n.toLower) with
    | some p => some p
    | none => byTask
  | none => byTask

/-- One provider as the fallback loop of `LLMManager.generate` sees it:
its `provider_name` and the outcome of its `generate` for the request
(as a function of prompt, `max_tokens` and `temperature`). -/
structure Prov where
  name : String
  gen : String → Nat → ℚ → Except String String

/-- The provider loop of `LLMManager.generate` (manager.py lines 160-202)
over the `providers_to_try` list: return the first success; on failure
continue unless the candidate is the last, in which case the aggregate
error embedding the last provider's error is raised. Returns the names of
the providers invoked, in order, together with the outcome. -/
def attemptChain (prompt : String) (maxTokens : Nat) (temperature : ℚ) :
    List Prov → List String × Except String String
  | [] => ([], Except.error "No LLM providers available")
  | [p] =>
    match p.gen prompt maxTokens temperature with
    | Except.ok t => ([p.name], Except.ok t)
    | Except.error e =>
      ([p.name], Except.error ("All LLM providers failed. Last error: " ++ e))
  | p :: q :: rest =>
    match p.gen prompt maxTokens temperature with
    | Except.ok t => ([p.name], Except.ok t)
    | Except.error _ =>
      let r := attemptChain prompt maxTokens temperature (q :: rest)
      (p.name :: r.1, r.2)

/-- The post-cache-check part of `LLMManager.generate`: build the attempt
list (primary plus — when `fallback` — every other available provider),
run the loop, and cache a successful response when caching is enabled. -/
def managerRun (store : CacheStore) (now : Int) (prompt taskType : String)
    (useCache : Bool) (maxTokens : Nat) (temperature : ℚ) (fallback : Bool)
    (primary : Prov) (others : List Prov) :
    CacheStore × List String × Except String String :=
  let chain := primary :: (if fallback then others else [])
  let r := attemptChain prompt maxTokens temperature chain
  match r.2 with
  | Except.ok t =>
    ((if useCache then cacheSet store now prompt taskType t [] else store),
     r.1, Except.ok t)
  | Except.error e => (store, r.1, Except.error e)

/-- Embedding of `LLMManager.generate` (manager.py lines 105-202): when
caching is enabled, look up the cache under the key built from the prompt
and the task type only (`max_age_hours = 168`) and return a hit without
touching any provider; otherwise run the provider loop. The middle
component of the result lists the providers invoked, in order. -/
def managerGenerate (store : CacheStore) (now : Int) (prompt taskType : String)
    (useCache : Bool) (maxTokens : Nat) (temperature : ℚ) (fallback : Bool)
    (primary : Prov) (others : List Prov) :
    CacheStore × List String × Except String String :=
  if useCache then
    match cacheGet store now prompt taskType [] 168 with
    | (some r, store2) => (store2, [], Except.ok r)
    | (none, store2) =>
      managerRun store2 now prompt taskType useCache maxTokens temperature
        fallback primary others
  else
    managerRun store now prompt taskType useCache maxTokens temperature
      fallback primary others

theorem keyLe_total (x y : List Char) : (keyLe x y || keyLe y x) = true := by
  induction x generalizing y with
  | nil => simp [keyLe]
  | cons a as ih =>
    cases y with
    | nil => simp [keyLe]
    | cons b bs =>
      rcases Nat.lt_trichotomy a.toNat b.toNat with h | h | h
      · simp [keyLe, h]
      · simp [keyLe, h, Nat.lt_irrefl, ih bs]
      · simp [keyLe, h, Nat.lt_asymm h]

theorem keyLe_trans (x y z : List Char) (h1 : keyLe x y = true)
    (h2 : keyLe y z = true) : keyLe x z = true := by
  induction x generalizing y z with
  | nil => simp [keyLe]
  | cons a as ih =>
    cases y with
    | nil => simp [keyLe] at h1
    | cons b bs =>
      cases z with
      | nil => simp [keyLe] at h2
      | cons c cs =>
        rcases Nat.lt_trichotomy a.toNat b.toNat with hab | hab | hab <;>
          rcases Nat.lt_trichotomy b.toNat c.toNat with hbc | hbc | hbc <;>
          simp [keyLe, hab, hbc, Nat.lt_irrefl, Nat.lt_asymm] at h1 h2 ⊢ <;>
          first
            | omega
            | (exact ih bs cs h1 h2)

theorem keyLe_antisymm (x y : List Char) (h1 : keyLe x y = true)
    (h2 : keyLe y x = true) : x = y := by
  induction x generalizing y with
  | nil =>
    cases y with
    | nil => rfl
    | cons b bs => simp [keyLe] at h2
  | cons a as ih =>
    cases y with
    | nil => simp [keyLe] at h1
    | cons b bs =>
      rcases Nat.lt_trichotomy a.toNat b.toNat with h | h | h
      · simp [keyLe, h, Nat.lt_asymm h] at h2
      · have hab : a = b := Char.ext (UInt32.ext h)
        subst hab
        simp [keyLe, Nat.lt_irrefl] at h1 h2
        rw [ih bs h1 h2]
      · simp [keyLe, h, Nat.lt_asymm h] at h1

theorem sortEntries_eq_of_perm {l1 l2 : List (String × Json)} (hp : l1.Perm l2)
    (hn : (l1.map Prod.fst).Nodup) : sortEntries l1 = sortEntries l2 := by
  have htrans : ∀ a b c : String × Json,
      entryLe a b = true → entryLe b c = true → entryLe a c = true :=
    fun a b c => keyLe_trans _ _ _
  have htotal : ∀ a b : String × Json, (entryLe a b || entryLe b a) = true :=
    fun a b => keyLe_total _ _
  have hs1 := List.sorted_mergeSort htrans htotal l1
  have hs2 := List.sorted_mergeSort htrans htotal l2
  have hperm : (l1.mergeSort entryLe).Perm (l2.mergeSort entryLe) :=
    ((List.mergeSort_perm l1 entryLe).trans hp).trans
      (List.mergeSort_perm l2 entryLe).symm
  have hn1 : ((l1.mergeSort entryLe).map Prod.fst).Nodup :=
    hn.perm ((List.mergeSort_perm l1 entryLe).map Prod.fst).symm
  have hn2 : ((l2.mergeSort entryLe).map Prod.fst).Nodup :=
    (hn.perm (hp.map Prod.fst)).perm
      ((List.mergeSort_perm l2 entryLe).map Prod.fst).symm
  have p1 : List.Pairwise
      (fun a b : String × Json => entryLe a b = true ∧ a.1 ≠ b.1)
      (l1.mergeSort entryLe) :=
    hs1.and (List.pairwise_map.mp hn1)
  have p2 : List.Pairwise
      (fun a b : String × Json => entryLe a b = true ∧ a.1 ≠ b.1)
      (l2.mergeSort entryLe) :=
    hs2.and (List.pairwise_map.mp hn2)
  haveI : IsAntisymm (String × Json)
      (fun a b : String × Json => entryLe a b = true ∧ a.1 ≠ b.1) :=
    ⟨fun a b ha hb =>
      absurd (String.ext (keyLe_antisymm _ _ ha.1 hb.1)) ha.2⟩
  exact List.eq_of_perm_of_sorted hperm p1 p2

theorem filtered_keys_sublist (params : List (String × Option Json)) :
    ((params.filterMap (fun kv => kv.2.map (fun v => (kv.1, v)))).map
        Prod.fst).Sublist
      (params.map Prod.fst) := by
  induction params with
  | nil => simp
  | cons kv rest ih =>
    match kv with
    | (k, none) => simpa using ih.cons k
    | (k, some v) => simpa using ih.cons₂ k

/-- C3. Cache key determinism: for every prompt, task classification and
list of extra keyword parameters (with distinct names, none of them the
reserved `prompt` / `model` names — as Python keyword arguments enforce),
reordering the parameters leaves the computed cache key unchanged, and
appending a parameter whose value is null does not change the key
(null-valued parameters are excluded from key computation). -/
theorem cache_key_determinism :
    (∀ (prompt model : String) (p1 p2 : List (String × Option Json)),
        p1.Perm p2 →
        (p1.map Prod.fst).Nodup →
        "prompt" ∉ p1.map Prod.fst →
        "model" ∉ p1.map Prod.fst →
        cacheKeyString prompt model p1 = cacheKeyString prompt model p2) ∧
    (∀ (prompt model : String) (params : List (String × Option Json)) (k : String),
        cacheKeyString prompt model (params ++ [(k, none)]) =
          cacheKeyString prompt model params) := by
  constructor
  · intro prompt model p1 p2 hperm hnodup hnp hnm
    unfold cacheKeyString
    apply congrArg jdump
    apply congrArg Json.obj
    apply sortEntries_eq_of_perm
    · exact List.Perm.cons _ (List.Perm.cons _ (hperm.filterMap _))
    · have hsub := filtered_keys_sublist p1
      have hfn : ((p1.filterMap (fun kv => kv.2.map (fun v => (kv.1, v)))).map
          Prod.fst).Nodup := hnodup.sublist hsub
      have hnp' : "prompt" ∉
          (p1.filterMap (fun kv => kv.2.map (fun v => (kv.1, v)))).map Prod.fst :=
        fun hmem => hnp (hsub.subset hmem)
      have hnm' : "model" ∉
          (p1.filterMap (fun kv => kv.2.map (fun v => (kv.1, v)))).map Prod.fst :=
        fun hmem => hnm (hsub.subset hmem)
      simp only [List.map_cons, List.nodup_cons, List.mem_cons]
      refine ⟨?_, hnm', hfn⟩
      rintro (h | h)
      · exact absurd h (by decide)
      · exact hnp' h
  · intro prompt model params k
    unfold cacheKeyString
    simp [List.filterMap_append]

/-- C4. Cache expiry: when the store holds an entry for the computed key
cached at time `T`, a `get` with `max_age_hours = H` at time `now` returns
the stored response and leaves the store unchanged when
`now - T ≤ H` hours, and treats the entry as a miss while deleting the
entry file when `now - T > H` hours (times in seconds, one hour being
3600 seconds). -/
theorem cache_expiry_semantics :
    ∀ (store : CacheStore) (now cachedT maxAgeH : Int)
      (prompt model resp : String) (params : List (String × Option Json)),
      List.lookup (cacheKeyString prompt model params) store =
        some ⟨resp, cachedT⟩ →
      ((now - cachedT ≤ maxAgeH * 3600 →
          cacheGet store now prompt model params maxAgeH = (some resp, store)) ∧
       (now - cachedT > maxAgeH * 3600 →
          cacheGet store now prompt model params maxAgeH =
            (none, store.filter
              (fun kv => !(kv.1 == cacheKeyString prompt model params))))) := by
  intro store now T H prompt model resp params hl
  constructor
  · intro hage
    simp only [cacheGet, hl]
    rw [if_neg (by omega)]
  · intro hage
    simp only [cacheGet, hl]
    rw [if_pos (by omega)]

/-- Concrete instantiation of the cache determinism and expiry theorems:
swapping two parameters keeps the key, a null parameter is ignored, and a
concrete fresh entry is returned while a stale one is deleted. -/
theorem cache_key_determinism_witness :
    cacheKeyString "p" "general"
        [("a", some (Json.num 1)), ("b", some (Json.str "x"))] =
      cacheKeyString "p" "general"
        [("b", some (Json.str "x")), ("a", some (Json.num 1))] :=
  cache_key_determinism.1 "p" "general" _ _
    (List.Perm.swap _ _ _) (by decide) (by decide) (by decide)

theorem cache_expiry_semantics_witness :
    (cacheGet [(cacheKeyString "p" "general" [], ⟨"resp", 1000⟩)] 200000
        "p" "general" [] 168 =
      (some "resp", [(cacheKeyString "p" "general" [], ⟨"resp", 1000⟩)])) ∧
    (cacheGet [(cacheKeyString "p" "general" [], ⟨"resp", 1000⟩)] 700000
        "p" "general" [] 168 =
      (none, List.filter
        (fun kv => !(kv.1 == cacheKeyString "p" "general" []))
        [(cacheKeyString "p" "general" [], ⟨"resp", 1000⟩)])) := by
  constructor
  · exact (cache_expiry_semantics _ 200000 1000 168 "p" "general" "resp" []
      (by simp [List.lookup])).1 (by omega)
  · exact (cache_expiry_semantics _ 700000 1000 168 "p" "general" "resp" []
      (by simp [List.lookup])).2 (by omega)

theorem attemptChain_cons_ok (prompt : String) (mt : Nat) (tp : ℚ) (p : Prov)
    (rest : List Prov) (t : String) (hp : p.gen prompt mt tp = Except.ok t) :
    attemptChain prompt mt tp (p :: rest) = ([p.name], Except.ok t) := by
  cases rest <;> simp [attemptChain, hp]

theorem attemptChain_all_fail (prompt : String) (mt : Nat) (tp : ℚ) :
    ∀ (ps : List Prov) (pLast : Prov) (eLast : String),
      (∀ q ∈ ps, ∃ e, q.gen prompt mt tp = Except.error e) →
      ps.getLast? = some pLast →
      pLast.gen prompt mt tp = Except.error eLast →
      attemptChain prompt mt tp ps =
        (ps.map Prov.name,
         Except.error ("All LLM providers failed. Last error: " ++ eLast)) := by
  intro ps
  induction ps with
  | nil => intro pLast eLast _ hlast _; simp at hlast
  | cons p rest ih =>
    intro pLast eLast hfail hlast hgen
    cases rest with
    | nil =>
      simp only [List.getLast?_singleton, Option.some.injEq] at hlast
      subst hlast
      simp [attemptChain, hgen]
    | cons q rest2 =>
      obtain ⟨e, he⟩ := hfail p (List.mem_cons_self p _)
      rw [List.getLast?_cons_cons] at hlast
      have hrec := ih pLast eLast
        (fun r hr => hfail r (List.mem_cons_of_mem p hr)) hlast hgen
      simp [attemptChain, he, hrec]

/-- C1. Fallback executor contract: with fallback enabled the loop of
`LLMManager.generate` tries the routed primary first and then every other
candidate in order; the first success stops the loop, returns that
provider's text and writes it to the cache when caching is enabled,
without invoking any later provider; when all N candidates fail, exactly
the N candidates are invoked in priority order and the raised
all-providers-failed error embeds the last provider's error. -/
theorem fallback_executor_contract :
    (∀ (prompt : String) (mt : Nat) (tp : ℚ) (p : Prov) (rest : List Prov)
        (t : String),
        p.gen prompt mt tp = Except.ok t →
        attemptChain prompt mt tp (p :: rest) = ([p.name], Except.ok t)) ∧
    (∀ (prompt : String) (mt : Nat) (tp : ℚ) (ps : List Prov) (pLast : Prov)
        (eLast : String),
        (∀ q ∈ ps, ∃ e, q.gen prompt mt tp = Except.error e) →
        ps.getLast? = some pLast →
        pLast.gen prompt mt tp = Except.error eLast →
        attemptChain prompt mt tp ps =
          (ps.map Prov.name,
           Except.error ("All LLM providers failed. Last error: " ++ eLast))) ∧
    (∀ (store : CacheStore) (now : Int) (prompt taskType : String) (mt : Nat)
        (tp : ℚ) (primary : Prov) (others : List Prov) (t : String),
        cacheGet store now prompt taskType [] 168 = (none, store) →
        primary.gen prompt mt tp = Except.ok t →
        managerGenerate store now prompt taskType true mt tp true primary
            others =
          (cacheSet store now prompt taskType t [], [primary.name],
           Except.ok t)) := by
  refine ⟨attemptChain_cons_ok, attemptChain_all_fail, ?_⟩
  intro store now prompt taskType mt tp primary others t hmiss hok
  simp only [managerGenerate, if_pos, hmiss, managerRun, if_true,
    attemptChain_cons_ok prompt mt tp primary others t hok]

theorem fallback_executor_contract_witness :
    (attemptChain "p" 2000 (7/10)
        [⟨"claude", fun _ _ _ => Except.error "overloaded"⟩,
         ⟨"openai", fun _ _ _ => Except.error "quota exhausted"⟩] =
      (["claude", "openai"],
       Except.error
         ("All LLM providers failed. Last error: " ++ "quota exhausted"))) ∧
    (managerGenerate [] 0 "p" "general" true 2000 (7/10) true
        ⟨"claude", fun _ _ _ => Except.ok "a ten char answer"⟩
        [⟨"openai", fun _ _ _ => Except.error "quota exhausted"⟩] =
      (cacheSet [] 0 "p" "general" "a ten char answer" [], ["claude"],
       Except.ok "a ten char answer")) := by
  constructor
  · refine fallback_executor_contract.2.1 "p" 2000 (7/10) _ _ "quota exhausted"
      ?_ rfl rfl
    intro q hq
    rcases List.mem_cons.mp hq with rfl | hq2
    · exact ⟨"overloaded", rfl⟩
    rcases List.mem_cons.mp hq2 with rfl | hq3
    · exact ⟨"quota exhausted", rfl⟩
    · exact absurd hq3 (List.not_mem_nil q)
  · exact fallback_executor_contract.2.2 [] 0 "p" "general" 2000 (7/10) _ _ _
      rfl rfl

/-- C9. The orchestrator's cache key depends only on the prompt and the
task classification: `LLMManager.generate` passes no keyword parameter
into cache lookup or cache write, so after a first call populates the
cache, a second call within the expiry window that differs in
`max_tokens`, `temperature`, fallback flag, or the entire provider lineup
returns the cached response of the first call without invoking any
provider. -/
theorem cache_key_param_independence :
    ∀ (store : CacheStore) (now1 now2 : Int) (prompt taskType t : String)
      (mt1 mt2 : Nat) (tp1 tp2 : ℚ) (fb1 fb2 : Bool) (prim1 prim2 : Prov)
      (others1 others2 : List Prov) (store1 : CacheStore)
      (names1 : List String),
      managerGenerate store now1 prompt taskType true mt1 tp1 fb1 prim1
          others1 = (store1, names1, Except.ok t) →
      names1 ≠ [] →
      now2 - now1 ≤ 168 * 3600 →
      managerGenerate store1 now2 prompt taskType true mt2 tp2 fb2 prim2
          others2 = (store1, [], Except.ok t) := by
  intro store now1 now2 prompt taskType t mt1 mt2 tp1 tp2 fb1 fb2 prim1 prim2
    others1 others2 store1 names1 h1 hinv hage
  have hstore1 : store1 =
      cacheSet (cacheGet store now1 prompt taskType [] 168).2 now1 prompt
        taskType t [] := by
    rw [managerGenerate, if_pos rfl] at h1
    rcases hget : cacheGet store now1 prompt taskType [] 168 with ⟨res, s2⟩
    rw [hget] at h1
    cases res with
    | some r =>
      dsimp only at h1
      exact absurd (congrArg (fun q => q.2.1) h1).symm hinv
    | none =>
      dsimp only at h1
      dsimp only
      rw [managerRun] at h1
      rcases hchain : (attemptChain prompt mt1 tp1
          (prim1 :: if fb1 then others1 else [])).2 with e | t2
      · rw [hchain] at h1
        exact absurd (congrArg (fun q => q.2.2) h1) (by simp)
      · rw [hchain] at h1
        have ht : t2 = t := by
          have := congrArg (fun q => q.2.2) h1
          simpa using this
        have := congrArg (fun q => q.1) h1
        simp only at this
        rw [← this, ht]
        simp
  have hlook : List.lookup (cacheKeyString prompt taskType []) store1 =
      some ⟨t, now1⟩ := by
    rw [hstore1]
    simp [cacheSet, List.lookup]
  rw [managerGenerate, if_pos rfl]
  have hget2 : cacheGet store1 now2 prompt taskType [] 168 =
      (some t, store1) := by
    simp only [cacheGet, hlook]
    rw [if_neg (by omega)]
  rw [hget2]

theorem cache_key_param_independence_witness :
    managerGenerate [(cacheKeyString "p" "general" [], ⟨"a ten char answer", 0⟩)]
        100 "p" "general" true 99 0 false
        ⟨"bedrock", fun _ _ _ => Except.error "never called"⟩ [] =
      ([(cacheKeyString "p" "general" [], ⟨"a ten char answer", 0⟩)], [],
       Except.ok "a ten char answer") := by
  refine cache_key_param_independence [] 0 100 "p" "general" "a ten char answer"
    2000 99 (7/10) 0 true false
    ⟨"claude", fun _ _ _ => Except.ok "a ten char answer"⟩
    ⟨"bedrock", fun _ _ _ => Except.error "never called"⟩ [] [] _ ["claude"]
    ?_ (by simp) (by omega)
  rfl

theorem genAux_ok_validate (backend : Nat → BackendResult) (rd : Nat) :
    ∀ (r attempt : Nat) (t : String),
      (genAux backend rd attempt r).result = Except.ok t →
      validate_response t = true := by
  intro r
  induction r with
  | zero => intro attempt t h; simp [genAux] at h
  | succ r ih =>
    intro attempt t h
    rw [genAux] at h
    cases hb : backend attempt with
    | ok s =>
      rw [hb] at h
      by_cases hv : validate_response s = true
      · simp only [hv, if_true] at h
        obtain rfl : s = t := by simpa using h
        exact hv
      · simp only [hv] at h
        simp at h
    | rateLimited m =>
      rw [hb] at h
      by_cases hr : r = 0
      · simp [hr] at h
      · simp only [hr, if_false] at h
        exact ih (attempt + 1) t h
    | apiError m =>
      rw [hb] at h
      simp at h

/-- C2 counterexample. With a backend that is rate-limited on every
attempt, the sleeps actually performed by a provider `generate` call are
1s and 2s — two sleeps, not the three sleeps 1s, 2s, 4s the claim
enumerates (the third attempt is the last, so it escalates without
sleeping and the 4s delay is never reached). -/
theorem retry_backoff_counterexample :
    (provGenerate (fun _ => BackendResult.rateLimited "rate limited")).sleeps
        = [1, 2] ∧
    (provGenerate (fun _ => BackendResult.rateLimited "rate limited")).sleeps
        ≠ [1, 2, 4] := by
  constructor
  · rfl
  · decide

/-- C2 (amended). Provider-internal retry policy: a generate call that is
rate-limited on every attempt invokes the backend exactly 3 times,
sleeping 1s then 2s before the second and third attempts (the doubling
schedule `retry_delay * 2 ^ attempt`, of which the 4s value is never
reached), and escalates the last rate-limit error; any other backend error
aborts the call on the spot — one invocation, no sleep, no retry. -/
theorem provider_retry_policy :
    (∀ backend : Nat → BackendResult,
        (∀ i, i < 3 → ∃ m, backend i = BackendResult.rateLimited m) →
        (provGenerate backend).calls = 3 ∧
        (provGenerate backend).sleeps = [1, 2] ∧
        ∃ m, backend 2 = BackendResult.rateLimited m ∧
          (provGenerate backend).result =
            Except.error (ProvError.rateLimited m)) ∧
    (∀ (backend : Nat → BackendResult) (m : String),
        backend 0 = BackendResult.apiError m →
        (provGenerate backend).calls = 1 ∧
        (provGenerate backend).sleeps = [] ∧
        (provGenerate backend).result = Except.error (ProvError.backend m)) := by
  constructor
  · intro backend h
    obtain ⟨m0, h0⟩ := h 0 (by omega)
    obtain ⟨m1, h1⟩ := h 1 (by omega)
    obtain ⟨m2, h2⟩ := h 2 (by omega)
    refine ⟨?_, ?_, m2, h2, ?_⟩ <;>
      simp [provGenerate, genAux, h0, h1, h2]
  · intro backend m h
    refine ⟨?_, ?_, ?_⟩ <;> simp [provGenerate, genAux, h]

theorem provider_retry_policy_witness :
    ((provGenerate (fun _ => BackendResult.rateLimited "throttled")).calls = 3 ∧
     (provGenerate (fun _ => BackendResult.rateLimited "throttled")).sleeps =
        [1, 2] ∧
     ∃ m, (fun _ : Nat => BackendResult.rateLimited "throttled") 2 =
          BackendResult.rateLimited m ∧
        (provGenerate (fun _ => BackendResult.rateLimited "throttled")).result =
          Except.error (ProvError.rateLimited m)) ∧
    ((provGenerate (fun _ => BackendResult.apiError "bad request")).calls = 1 ∧
     (provGenerate (fun _ => BackendResult.apiError "bad request")).sleeps = [] ∧
     (provGenerate (fun _ => BackendResult.apiError "bad request")).result =
        Except.error (ProvError.backend "bad request")) :=
  ⟨provider_retry_policy.1 (fun _ => BackendResult.rateLimited "throttled")
      (fun _ _ => ⟨"throttled", rfl⟩),
   provider_retry_policy.2 (fun _ => BackendResult.apiError "bad request")
      "bad request" rfl⟩

/-- C8. Response validity threshold: `validate_response` accepts exactly
the responses whose length after stripping whitespace is at least 10
characters, so a provider `generate` call succeeds only with such text; a
backend response that fails validation makes the call fail immediately
with the invalid-response error after a single backend invocation — no
retry, no success. -/
theorem response_validity_threshold :
    (∀ t : String, validate_response t = true ↔ 10 ≤ (pyStrip t).length) ∧
    (∀ (backend : Nat → BackendResult) (t : String),
        (provGenerate backend).result = Except.ok t → 10 ≤ (pyStrip t).length) ∧
    (∀ (backend : Nat → BackendResult) (t : String),
        backend 0 = BackendResult.ok t → validate_response t = false →
        (provGenerate backend).calls = 1 ∧
        (provGenerate backend).sleeps = [] ∧
        (provGenerate backend).result =
          Except.error ProvError.invalidResponse) := by
  have hiff : ∀ t : String, validate_response t = true ↔ 10 ≤ (pyStrip t).length := by
    intro t
    unfold validate_response
    constructor
    · intro h
      by_cases h1 : t = "" ∨ pyStrip t = ""
      · rw [if_pos h1] at h; exact absurd h (by simp)
      · rw [if_neg h1] at h
        by_cases h2 : (pyStrip t).length < 10
        · rw [if_pos h2] at h; exact absurd h (by simp)
        · omega
    · intro h
      have htrim : pyStrip t ≠ "" := by
        intro he
        rw [he] at h
        exact absurd h (by decide)
      have ht : t ≠ "" := by
        intro he
        subst he
        exact htrim rfl
      rw [if_neg (not_or.mpr ⟨ht, htrim⟩), if_neg (by omega)]
  refine ⟨hiff, ?_, ?_⟩
  · intro backend t h
    exact (hiff t).mp (genAux_ok_validate backend 1 3 0 t h)
  · intro backend t hb hv
    refine ⟨?_, ?_, ?_⟩ <;> simp [provGenerate, genAux, hb, hv]

theorem response_validity_threshold_witness :
    (validate_response "a ten char answer" = true ↔
        10 ≤ (pyStrip "a ten char answer").length) ∧
    ((provGenerate (fun _ => BackendResult.ok "short")).calls = 1 ∧
     (provGenerate (fun _ => BackendResult.ok "short")).sleeps = [] ∧
     (provGenerate (fun _ => BackendResult.ok "short")).result =
        Except.error ProvError.invalidResponse) :=
  ⟨response_validity_threshold.1 "a ten char answer",
   response_validity_threshold.2.2 (fun _ => BackendResult.ok "short") "short"
      rfl rfl⟩

set_option maxRecDepth 8192 in
/-- C5. Salvage parser: strict whole-string parse wins when it succeeds;
when the strict parse and both bracket-substring extractions fail, the
raised error carries the 200-character prefix of the original text; and
the three concrete behaviours the specification fixes — prose-wrapped
object extraction, failure on brace-free text, and a bare array parsed
directly. -/
theorem salvage_parse_behavior :
    (∀ (s : String) (v : Json),
        jsonParse s = some v → salvageParse s = Except.ok v) ∧
    (∀ s : String,
        jsonParse s = none →
        (spanSlice '\x7b' '\x7d' s.data).bind jsonParseChars = none →
        (spanSlice '[' ']' s.data).bind jsonParseChars = none →
        salvageParse s =
          Except.error ("Failed to parse JSON from LLM response: " ++ s.take 200)) ∧
    salvageParse "Sure! \x7b\"a\":1\x7d thanks" =
      Except.ok (Json.obj [("a", Json.num 1)]) ∧
    salvageParse "no json here" =
      Except.error ("Failed to parse JSON from LLM response: no json here") ∧
    salvageParse "[1,2,3]" =
      Except.ok (Json.arr [Json.num 1, Json.num 2, Json.num 3]) := by
  refine ⟨?_, ?_, rfl, rfl, rfl⟩
  · intro s v h
    simp [salvageParse, h]
  · intro s h1 h2 h3
    simp [salvageParse, h1, h2, h3]

theorem salvage_parse_behavior_witness :
    salvageParse "7 is a nice number" =
      Except.error
        ("Failed to parse JSON from LLM response: " ++
          ("7 is a nice number").take 200) :=
  salvage_parse_behavior.2.1 "7 is a nice number" rfl rfl rfl

/-- C6 counterexample. With only the bedrock provider available and its
model set to the Opus variant (a model `BedrockProvider.__init__`
accepts), routing a `simple` (low-cost) task selects bedrock but leaves
its model unchanged — `BedrockProvider` exposes no `get_cheap_model`, so
the `hasattr` branch skips the forcing and the active model is not the
cheapest listed Bedrock model. -/
theorem lowcost_routing_counterexample :
    get_provider
        ⟨false, "claude-3-5-haiku-20241022", false, "gpt-4o-mini", true,
         "anthropic.claude-3-opus-20240229-v1:0"⟩ none "simple" =
      some ⟨PKind.bedrock, true, "anthropic.claude-3-opus-20240229-v1:0"⟩ ∧
    "anthropic.claude-3-opus-20240229-v1:0" ≠ bedrockCheapestListed ∧
    List.lookup bedrockCheapestListed bedrockPRICING = some (1/4, 5/4) ∧
    List.lookup "anthropic.claude-3-opus-20240229-v1:0" bedrockPRICING =
      some (15, 75) := by
  exact ⟨rfl, by decide, rfl, rfl⟩

/-- C6 (amended). Low-cost routing: for a `simple` or `refinement`
(low-cost / revision) task with no explicit provider override, routing
returns the first available provider in the fixed claude, openai, bedrock
order; the claude and openai variants have their active model forced to
their cheapest known model, while the bedrock variant — which exposes no
cheap-model hint — keeps whatever model it had. -/
theorem lowcost_routing_behavior :
    ∀ (m : MgrState) (tt : String), tt = "simple" ∨ tt = "refinement" →
      get_provider m none tt = ((availList m).head?).map applyCheap ∧
      (∀ p : PState, (availList m).head? = some p →
        get_provider m none tt = some (applyCheap p) ∧
        (p.kind = PKind.claude → (applyCheap p).model = claudeCheapModel) ∧
        (p.kind = PKind.openai → (applyCheap p).model = openaiCheapModel) ∧
        (p.kind = PKind.bedrock → (applyCheap p).model = p.model)) := by
  intro m tt htt
  have hroute : get_provider m none tt = ((availList m).head?).map applyCheap := by
    rcases htt with h | h <;> subst h <;> rfl
  refine ⟨hroute, ?_⟩
  intro p hp
  refine ⟨by rw [hroute, hp]; rfl, ?_, ?_, ?_⟩ <;>
    intro hk <;> simp [applyCheap, getCheapModel, hk]

theorem lowcost_routing_behavior_witness :
    get_provider
        ⟨true, "claude-3-5-sonnet-20241022", true, "gpt-4o", true,
         "anthropic.claude-3-5-haiku-20241022-v1:0"⟩ none "refinement" =
      some ⟨PKind.claude, true, claudeCheapModel⟩ :=
  ((lowcost_routing_behavior
      ⟨true, "claude-3-5-sonnet-20241022", true, "gpt-4o", true,
       "anthropic.claude-3-5-haiku-20241022-v1:0"⟩ "refinement"
      (Or.inr rfl)).2
    ⟨PKind.claude, true, "claude-3-5-sonnet-20241022"⟩ rfl).1

/-- C7. Cost estimation: for any provider price table, a model listed at
per-million-token prices `(pin, pout)` yields
`in/1,000,000 * pin + out/1,000,000 * pout`, an unlisted model yields
zero; in particular `gpt-4o`, priced at (2.50, 10.00), costs
0.25 + 0.5 = 0.75 for 100,000 input and 50,000 output tokens. -/
theorem cost_estimation :
    (∀ (pricing : List (String × ℚ × ℚ)) (model : String) (pin pout : ℚ)
        (i o : Nat),
        List.lookup model pricing = some (pin, pout) →
        get_cost pricing model i o =
          (i : ℚ) / 1000000 * pin + (o : ℚ) / 1000000 * pout) ∧
    (∀ (pricing : List (String × ℚ × ℚ)) (model : String) (i o : Nat),
        List.lookup model pricing = none → get_cost pricing model i o = 0) ∧
    List.lookup "gpt-4o" openaiPRICING = some (5/2, 10) ∧
    get_cost openaiPRICING "gpt-4o" 100000 50000 = 1/4 + 1/2 ∧
    (1/4 + 1/2 : ℚ) = 3/4 ∧
    get_cost claudePRICING "claude-9-futuristic" 100000 50000 = 0 := by
  refine ⟨?_, ?_, ?_, ?_, by norm_num, ?_⟩
  · intro pricing model pin pout i o h
    simp [get_cost, h]
  · intro pricing model i o h
    simp [get_cost, h]
  · norm_num [openaiPRICING, List.lookup]
  · norm_num [get_cost, openaiPRICING, List.lookup]
  · rfl

theorem cost_estimation_witness :
    get_cost openaiPRICING "gpt-4o" 100000 50000 =
      (100000 : ℚ) / 1000000 * (5/2) + (50000 : ℚ) / 1000000 * 10 :=
  cost_estimation.1 openaiPRICING "gpt-4o" (5/2) 10 100000 50000
    (by norm_num [openaiPRICING, List.lookup])

/-- C10 counterexample. `LLMCache.set` writes the entry file in place:
`open(cache_path, "w")` truncates it before `json.dump` rewrites it, so a
concurrent reader scheduled between the two steps observes an empty file
— a state that is neither the old entry nor the new one, contradicting
the claim that a reader never observes a half-written entry. -/
theorem atomic_write_counterexample :
    some "" ∈
      setWriteStates (some "old cached entry") "new cached entry" ∧
    (some "" : Option String) ≠ some "old cached entry" ∧
    (some "" : Option String) ≠ some "new cached entry" := by
  refine ⟨?_, by decide, by decide⟩
  simp [setWriteStates]

/-- C10 (amended). Cache writes are in-place, not atomic: during one
`set`, the entry file starts at its prior contents and ends holding the
complete new entry, but passes through a truncated intermediate state;
whenever the prior contents and the new entry are non-empty, a concurrent
reader can observe a state that is neither of them (no write-then-rename
replace is performed). -/
theorem cache_write_in_place :
    ∀ (old : Option String) (fresh : String),
      (setWriteStates old fresh).head? = some old ∧
      (setWriteStates old fresh).getLast? = some (some fresh) ∧
      (old ≠ some "" → fresh ≠ "" →
        ∃ c ∈ setWriteStates old fresh, c ≠ old ∧ c ≠ some fresh) := by
  intro old fresh
  refine ⟨rfl, rfl, ?_⟩
  intro h1 h2
  refine ⟨some "", by simp [setWriteStates], fun hc => h1 hc.symm, fun hc => ?_⟩
  exact h2 (by injection hc with h3; exact h3.symm)

theorem cache_write_in_place_witness :
    ∃ c ∈ setWriteStates (some "old cached entry") "new cached entry",
      c ≠ some "old cached entry" ∧ c ≠ some "new cached entry" :=
  (cache_write_in_place (some "old cached entry") "new cached entry").2.2
    (by decide) (by decide)
